import Mathlib

/-!
Verification of the polyresearch trade/activity aggregation, filtering and
scoring engine against its specification.  Pure arithmetic uses the rational
numbers as the decimal-safe accumulation type.
-/

namespace PolyResearch

/-- Side of a trade, BUY or SELL. -/
inductive Side where
  | BUY
  | SELL
deriving DecidableEq

/-- One normalized trade record: wallet address, side, probability price and
quantity.  Market id and timestamp are irrelevant to the gain computation and
omitted. -/
structure TradeRecord where
  wallet : String
  side : Side
  price : ℚ
  size : ℚ
deriving DecidableEq

/-- Kind of an activity record. -/
inductive ActivityKind where
  | TRADE
  | REDEEM
  | OTHER
deriving DecidableEq

/-- One normalized activity record: wallet, kind and signed amount. -/
structure ActivityRecord where
  wallet : String
  kind : ActivityKind
  amount : ℚ
deriving DecidableEq

/-- Modelled from the spec: the backend module services/gainers.py
(calculate_gain_from_trades) is not present in the repository snapshot; the
definition follows the specification and the TOP_GAINERS_README formula
"(Sum of SELL prices x sizes) - (Sum of BUY prices x sizes)", folded over the
record list the way the described loop accumulates. -/
def calculate_gain_from_trades (wallet : String) (trades : List TradeRecord) : ℚ :=
  trades.foldl
    (fun acc t =>
      if t.wallet = wallet then
        match t.side with
        | Side.SELL => acc + t.price * t.size
        | Side.BUY => acc - t.price * t.size
      else acc)
    0

/-- Modelled from the spec: the backend module services/gainers.py
(calculate_gain_from_activity) is not present in the repository snapshot; the
definition follows the specification: sum the amounts of REDEEM-kind
activities of the wallet, ignoring other kinds. -/
def calculate_gain_from_activity (wallet : String) (activities : List ActivityRecord) : ℚ :=
  activities.foldl
    (fun acc a =>
      if a.wallet = wallet ∧ a.kind = ActivityKind.REDEEM then acc + a.amount else acc)
    0

/-- Modelled from the spec: realized gain is the larger of the trade-based and
the activity-based estimate (TOP_GAINERS_README: "calculates gains using two
methods and uses the higher value"). -/
def realized_gain (wallet : String) (trades : List TradeRecord)
    (activities : List ActivityRecord) : ℚ :=
  max (calculate_gain_from_trades wallet trades) (calculate_gain_from_activity wallet activities)

/-- Wallet and record set realizing trade_gain = 100 and activity_gain = 40. -/
def maxDemoWallet : String := "0xdemo"

/-- One SELL trade worth 100 for the max-not-sum scenario. -/
def maxDemoTrades : List TradeRecord :=
  [{ wallet := maxDemoWallet, side := Side.SELL, price := 1, size := 100 }]

/-- One REDEEM activity worth 40 for the max-not-sum scenario. -/
def maxDemoActivities : List ActivityRecord :=
  [{ wallet := maxDemoWallet, kind := ActivityKind.REDEEM, amount := 40 }]

/-- Trade list of the gain-correctness scenario: BUY 10 at 0.40 then SELL 10
at 0.65. -/
def gainDemoTrades : List TradeRecord :=
  [{ wallet := "W", side := Side.BUY, price := 40/100, size := 10 },
   { wallet := "W", side := Side.SELL, price := 65/100, size := 10 }]

/-! ## Market scorer -/

/-- Point-in-time snapshot of one market, as consumed by the scorer.  Prices
are probabilities in [0,1]; created_days_ago is the age of the market at
evaluation time, in days. -/
structure MarketSnapshot where
  volume_24h : ℚ
  volume_1wk : ℚ
  volume_1mo : ℚ
  liquidity : ℚ
  created_days_ago : ℚ
  yes_price : ℚ
  no_price : ℚ
deriving DecidableEq

/-- Modelled from the spec: the scoring module services/markets.py
(get_markets_to_watch) is not present in the repository snapshot; the
volume-growth criterion follows the specification's table, including its
division-by-zero guard: a zero 1-week volume is "no growth signal", the ratio
is only compared when the denominator is positive. -/
def volume_growth (s : MarketSnapshot) : Bool :=
  decide (0 < s.volume_1wk ∧ 2 < s.volume_24h / s.volume_1wk)

/-- Modelled from the spec: recent-creation criterion, market created within
7 days of evaluation time. -/
def recent_creation (s : MarketSnapshot) : Bool :=
  decide (s.created_days_ago ≤ 7)

/-- Modelled from the spec: high-liquidity criterion, liquidity above 10000
currency units. -/
def high_liquidity (s : MarketSnapshot) : Bool :=
  decide (10000 < s.liquidity)

/-- Modelled from the spec: competitive criterion, the larger outcome
probability lies between 30 percent and 70 percent inclusive. -/
def competitive (s : MarketSnapshot) : Bool :=
  decide (3/10 ≤ max s.yes_price s.no_price ∧ max s.yes_price s.no_price ≤ 7/10)

/-- Modelled from the spec: high-volume criterion, 24h volume above 50000. -/
def high_volume (s : MarketSnapshot) : Bool :=
  decide (50000 < s.volume_24h)

/-- Modelled from the spec: the fixed five-row criteria table of the market
scorer, in the listed order, each row carrying its points and its predicate. -/
def scoreTable : List (ℕ × (MarketSnapshot → Bool)) :=
  [(30, volume_growth), (20, recent_creation), (15, high_liquidity),
   (25, competitive), (10, high_volume)]

/-- Modelled from the spec: the scorer accumulates the points of the fired
criteria over the table, starting from zero, exactly as the documented
score-and-append loop does. -/
def score_market (s : MarketSnapshot) : ℕ :=
  scoreTable.foldl (fun acc pc => if pc.2 s then acc + pc.1 else acc) 0

/-- Snapshot firing all five criteria. -/
def allFireSnap : MarketSnapshot :=
  { volume_24h := 60000, volume_1wk := 1000, volume_1mo := 100000,
    liquidity := 20000, created_days_ago := 2, yes_price := 1/2, no_price := 1/2 }

/-- Snapshot with zero 1-week volume and 500 of 24h volume. -/
def zeroWkSnap : MarketSnapshot :=
  { volume_24h := 500, volume_1wk := 0, volume_1mo := 500,
    liquidity := 0, created_days_ago := 100, yes_price := 95/100, no_price := 5/100 }

/-! ## Filter forwarding route -/

/-- One entry of the mock result list hard-coded in the filter forwarding
route. -/
structure MockResult where
  id : ℕ
  name : String
  score : ℕ
deriving DecidableEq

/-- Response of the filter forwarding route: the backend JSON forwarded on
success, the hard-coded mock payload on backend failure, or a 500 error when
the request body cannot be processed. -/
inductive FilterRouteResponse where
  | fromBackend (data : String)
  | mockFallback (message : String) (filtersReceived : String) (results : List MockResult)
  | failure (status : ℕ) (error : String)
deriving DecidableEq

/-- The fixed mock result list of the filter forwarding route. -/
def mockResults : List MockResult :=
  [{ id := 1, name := "Result A", score := 98 }, { id := 2, name := "Result B", score := 85 }]

/-- Shallow embedding of the POST handler of the filter forwarding route:
body is the parsed request JSON, or none when parsing throws; backend is the
backend response body, or none when the fetch throws or the backend answers a
non-ok status. -/
def filterRoutePOST (body : Option String) (backend : Option String) : FilterRouteResponse :=
  match body with
  | none => FilterRouteResponse.failure 500 "Failed to process filters"
  | some b =>
    match backend with
    | some data => FilterRouteResponse.fromBackend data
    | none =>
      FilterRouteResponse.mockFallback "Filters applied successfully (Mock Data)" b mockResults

/-- Whether a route response is the error case. -/
def FilterRouteResponse.isFailure : FilterRouteResponse → Bool
  | FilterRouteResponse.failure _ _ => true
  | _ => false

/-! ## Trendings route -/

/-- One market of a trending event, as delivered by the backend feed. -/
structure RawMarket where
  id : String
  question : String
  yes_price : ℚ
  no_price : ℚ
deriving DecidableEq

/-- One trending event of the backend feed: title, optional category, 24h
volume, url and its markets. -/
structure TrendingEvent where
  title : String
  category : Option String
  volume_24h : ℚ
  url : String
  markets : List RawMarket
deriving DecidableEq

/-- One flattened market of the trendings route output. -/
structure OutMarket where
  id : String
  category_label : String
  event_title : String
  question : String
  yes_price : ℚ
  no_price : ℚ
  volume_24h : ℚ
  url : String
deriving DecidableEq

/-- Category label defaulting, mirroring the or-else expression of the route:
a missing or empty category becomes the label "Trending". -/
def orTrending : Option String → String
  | none => "Trending"
  | some s => if s = "" then "Trending" else s

/-- Flattened output market built from an event and one of its markets,
field for field as the route pushes it. -/
def toOutMarket (e : TrendingEvent) (m : RawMarket) : OutMarket :=
  { id := m.id, category_label := orTrending e.category, event_title := e.title,
    question := m.question, yes_price := m.yes_price, no_price := m.no_price,
    volume_24h := e.volume_24h, url := e.url }

/-- Flattening loop of the trendings route: for each event in order, push one
output market per market of the event, in order. -/
def flattenEvents : List TrendingEvent → List OutMarket
  | [] => []
  | e :: es => e.markets.map (toOutMarket e) ++ flattenEvents es

/-- Successful response of the trendings route. -/
structure TrendingsResponse where
  count : ℕ
  markets : List OutMarket
deriving DecidableEq

/-- Shallow embedding of the GET handler of the trendings route on a
successful backend answer carrying the given event list. -/
def trendingsGET (events : List TrendingEvent) : TrendingsResponse :=
  { count := (flattenEvents events).length, markets := flattenEvents events }

/-- Concrete event without category for the C9 witness. -/
def noCatEvent : TrendingEvent :=
  { title := "E1", category := none, volume_24h := 10, url := "u1",
    markets := [{ id := "m1", question := "q1", yes_price := 60, no_price := 40 }] }

/-- Concrete event with category Politics for the C9 witness. -/
def politicsEvent : TrendingEvent :=
  { title := "E2", category := some "Politics", volume_24h := 20, url := "u2",
    markets := [{ id := "m2", question := "q2", yes_price := 50, no_price := 50 },
                { id := "m3", question := "q3", yes_price := 30, no_price := 70 }] }

/-! ## TrendingBar deduplication -/

/-- Last market of the list carrying the given event title, mirroring the
value kept by a JavaScript Map when the same key is set repeatedly. -/
def lastWithTitle (t : String) : List OutMarket → Option OutMarket
  | [] => none
  | m :: ms =>
    match lastWithTitle t ms with
    | some r => some r
    | none => if m.event_title = t then some m else none

/-- Distinct strings of a list in first-occurrence order, mirroring the key
iteration order of a JavaScript Map. -/
def dedupTitles : List String → List String
  | [] => []
  | t :: ts => t :: (dedupTitles ts).filter (fun s => s ≠ t)

/-- Shallow embedding of the TrendingBar deduplication, the values of a Map
built from title-market pairs: one market per distinct title, titles in
first-occurrence order, each carrying the last market seen for that title. -/
def dedupByTitle (l : List OutMarket) : List OutMarket :=
  (dedupTitles (l.map (fun m => m.event_title))).filterMap (fun t => lastWithTitle t l)

/-- First fetched market with the duplicated event title "E". -/
def dupFirst : OutMarket :=
  { id := "1", category_label := "Trending", event_title := "E", question := "q1",
    yes_price := 50, no_price := 50, volume_24h := 0, url := "u" }

/-- Second fetched market with the duplicated event title "E". -/
def dupSecond : OutMarket :=
  { id := "2", category_label := "Trending", event_title := "E", question := "q2",
    yes_price := 50, no_price := 50, volume_24h := 0, url := "u" }

/-! ## Profile sorting and capping -/

/-- Wallet profile as consumed by the frontend sorts: address, display
handle, realized profit and trade count. -/
structure Profile where
  wallet : String
  handle : String
  profit : ℚ
  trades : ℕ
deriving DecidableEq

/-- Insertion step of the profile sort: the incoming element, which precedes
the already placed ones in the input, is placed before the first element
whose profit is not larger.  This is the behavior of the stable JavaScript
Array sort under the comparator taking b.profit minus a.profit. -/
def insertByProfit (x : Profile) : List Profile → List Profile
  | [] => [x]
  | y :: ys => if y.profit ≤ x.profit then x :: y :: ys else y :: insertByProfit x ys

/-- Shallow embedding of the frontend profile sort (page.tsx Top Profits and
the ProfitChart): stable sort, descending by profit only. -/
def sortByProfitDesc : List Profile → List Profile
  | [] => []
  | x :: xs => insertByProfit x (sortByProfitDesc xs)

/-- Top Profits box of the main page: copy, sort descending by profit, keep
the first three. -/
def topProfits (profiles : List Profile) : List Profile :=
  (sortByProfitDesc profiles).take 3

/-- ProfitChart positive slice: the sorted profitable profiles. -/
def chartProfitable (profiles : List Profile) : List Profile :=
  (sortByProfitDesc profiles).filter (fun p => 0 < p.profit)

/-- ProfitChart top slice: the first ten sorted profitable profiles. -/
def chartTop10 (profiles : List Profile) : List Profile :=
  (chartProfitable profiles).take 10

/-- ProfitChart Others bucket source: the sorted profitable profiles beyond
the first ten. -/
def chartOthers (profiles : List Profile) : List Profile :=
  (chartProfitable profiles).drop 10

/-- Profile with address 0xaaa and profit 500. -/
def tieAaa : Profile := { wallet := "0xaaa", handle := "", profit := 500, trades := 0 }

/-- Profile with address 0xbbb and profit 500. -/
def tieBbb : Profile := { wallet := "0xbbb", handle := "", profit := 500, trades := 0 }

/-- Profile with negative profit for the capping counterexample. -/
def lossProfile : Profile := { wallet := "0xloss", handle := "", profit := -5, trades := 1 }

/-- Profile with profit 1 for the capping witness. -/
def smallWin : Profile := { wallet := "0xsmall", handle := "", profit := 1, trades := 1 }

/-- Profile with profit 5 for the capping witness. -/
def bigWin : Profile := { wallet := "0xbig", handle := "", profit := 5, trades := 1 }

/-! ## Filter criteria -/

/-- Condition of a filter criterion: ignore the field, strictly more,
strictly less, or exactly equal. -/
inductive FilterCondition where
  | reset
  | more
  | less
  | equal
deriving DecidableEq

/-- Filterable field selector. -/
inductive FilterField where
  | moneyGain
  | moneyLost
  | moneySpent
  | tradeCount
  | accountAgeDays
deriving DecidableEq

/-- One filter criterion: a field, a condition and a numeric threshold, the
condition-amount pair the frontend builds per field. -/
structure FilterCriterion where
  field : FilterField
  condition : FilterCondition
  threshold : ℚ
deriving DecidableEq

/-- Numeric view of a wallet profile under the filterable fields. -/
structure WalletStats where
  money_gain : ℚ
  money_lost : ℚ
  money_spent : ℚ
  trade_count : ℚ
  account_age_days : ℚ
deriving DecidableEq

/-- Field selection on a wallet profile. -/
def fieldValue (p : WalletStats) : FilterField → ℚ
  | FilterField.moneyGain => p.money_gain
  | FilterField.moneyLost => p.money_lost
  | FilterField.moneySpent => p.money_spent
  | FilterField.tradeCount => p.trade_count
  | FilterField.accountAgeDays => p.account_age_days

/-- Modelled from the spec: the backend predicate evaluator of the filter
pipeline is not present in the repository snapshot (the frontend only builds
the condition-threshold pairs, with a toggle whose neutral state is reset);
per the specification, reset always passes, more is strictly greater, less
strictly smaller, equal exact. -/
def criterion_passes (c : FilterCriterion) (p : WalletStats) : Bool :=
  match c.condition with
  | FilterCondition.reset => true
  | FilterCondition.more => decide (c.threshold < fieldValue p c.field)
  | FilterCondition.less => decide (fieldValue p c.field < c.threshold)
  | FilterCondition.equal => decide (fieldValue p c.field = c.threshold)

/-- Conjunction of a criteria set over one profile. -/
def passes_all (cs : List FilterCriterion) (p : WalletStats) : Bool :=
  cs.all (fun c => criterion_passes c p)

/-- Reset criterion on the money-gain field with an arbitrary nonzero
threshold. -/
def resetCriterion : FilterCriterion :=
  { field := FilterField.moneyGain, condition := FilterCondition.reset, threshold := 12345 }

/-- Profile whose money gain is 7, distinct from both zero and the reset
criterion's threshold. -/
def statsSeven : WalletStats :=
  { money_gain := 7, money_lost := 0, money_spent := 3, trade_count := 2,
    account_age_days := 1 }

/-! ## Theorems -/

/-- Generalized fold characterization used to relate the accumulating loop of
calculate_gain_from_trades to the closed sum formula. -/
lemma gain_from_trades_foldl (wallet : String) (trades : List TradeRecord) (init : ℚ) :
    trades.foldl
      (fun acc t =>
        if t.wallet = wallet then
          match t.side with
          | Side.SELL => acc + t.price * t.size
          | Side.BUY => acc - t.price * t.size
        else acc)
      init
    = init
      + ((trades.filter (fun t => t.wallet = wallet ∧ t.side = Side.SELL)).map
          (fun t => t.price * t.size)).sum
      - ((trades.filter (fun t => t.wallet = wallet ∧ t.side = Side.BUY)).map
          (fun t => t.price * t.size)).sum := by
  induction trades generalizing init with
  | nil => simp
  | cons t ts ih =>
    by_cases hw : t.wallet = wallet
    · cases hs : t.side
      · simp only [List.foldl_cons, List.filter_cons, hw, hs]
        rw [ih]
        simp
        ring
      · simp only [List.foldl_cons, List.filter_cons, hw, hs]
        rw [ih]
        simp
        ring
    · simp only [List.foldl_cons, List.filter_cons, hw]
      rw [ih]
      simp [hw]

/-- C1: realized gain is the maximum of the trade-based and activity-based
gains for every wallet and record set, never their sum; on a record set with
trade_gain = 100 and activity_gain = 40 the realized gain is 100, not 140. -/
theorem realized_gain_is_max_not_sum :
    (∀ (w : String) (ts : List TradeRecord) (as : List ActivityRecord),
        realized_gain w ts as
          = max (calculate_gain_from_trades w ts) (calculate_gain_from_activity w as))
    ∧ calculate_gain_from_trades maxDemoWallet maxDemoTrades = 100
    ∧ calculate_gain_from_activity maxDemoWallet maxDemoActivities = 40
    ∧ realized_gain maxDemoWallet maxDemoTrades maxDemoActivities = 100
    ∧ realized_gain maxDemoWallet maxDemoTrades maxDemoActivities ≠ 140 := by
  refine ⟨fun w ts as => rfl, ?_, ?_, ?_, ?_⟩
  · norm_num [calculate_gain_from_trades, maxDemoTrades, maxDemoWallet]
  · norm_num [calculate_gain_from_activity, maxDemoActivities, maxDemoWallet]
  · norm_num [realized_gain, calculate_gain_from_trades, calculate_gain_from_activity,
      maxDemoTrades, maxDemoActivities, maxDemoWallet]
  · norm_num [realized_gain, calculate_gain_from_trades, calculate_gain_from_activity,
      maxDemoTrades, maxDemoActivities, maxDemoWallet]

/-- C2: the trade-based gain of a wallet is the sum of price times size over
its SELL trades minus the sum over its BUY trades, and the concrete trades
BUY 10 at 0.40, SELL 10 at 0.65 yield a gain of 2.50. -/
theorem calculate_gain_from_trades_spec :
    (∀ (w : String) (ts : List TradeRecord),
        calculate_gain_from_trades w ts
          = ((ts.filter (fun t => t.wallet = w ∧ t.side = Side.SELL)).map
              (fun t => t.price * t.size)).sum
            - ((ts.filter (fun t => t.wallet = w ∧ t.side = Side.BUY)).map
              (fun t => t.price * t.size)).sum)
    ∧ calculate_gain_from_trades "W" gainDemoTrades = 5/2 := by
  constructor
  · intro w ts
    have h := gain_from_trades_foldl w ts 0
    simpa [calculate_gain_from_trades] using h
  · norm_num [calculate_gain_from_trades, gainDemoTrades]

/-- Accumulating a criteria table equals adding the points of the fired rows. -/
lemma score_foldl (s : MarketSnapshot) (table : List (ℕ × (MarketSnapshot → Bool)))
    (init : ℕ) :
    table.foldl (fun acc pc => if pc.2 s then acc + pc.1 else acc) init
      = init + ((table.filter (fun pc => pc.2 s)).map (fun pc => pc.1)).sum := by
  induction table generalizing init with
  | nil => simp
  | cons pc rest ih =>
    by_cases h : pc.2 s = true
    · simp only [List.foldl_cons, List.filter_cons, h, if_pos]
      rw [ih]
      simp
      ring
    · simp only [List.foldl_cons, List.filter_cons, h]
      rw [ih]
      simp [h]

/-- C3: the market score is the sum of the points of exactly the criteria of
the fixed five-row table that fire, it always lies between 0 and 100, and a
snapshot firing all five criteria scores exactly 100. -/
theorem score_market_spec :
    (∀ s : MarketSnapshot,
        score_market s
          = ((scoreTable.filter (fun pc => pc.2 s)).map (fun pc => pc.1)).sum
        ∧ score_market s ≤ 100)
    ∧ score_market allFireSnap = 100 := by
  constructor
  · intro s
    constructor
    · simpa [score_market] using score_foldl s scoreTable 0
    · simp only [score_market, scoreTable, List.foldl]
      split_ifs <;> norm_num
  · have h1 : volume_growth allFireSnap = true := by
      simp [volume_growth, allFireSnap]
      norm_num
    have h2 : recent_creation allFireSnap = true := by
      simp [recent_creation, allFireSnap]
      norm_num
    have h3 : high_liquidity allFireSnap = true := by
      simp [high_liquidity, allFireSnap]
      norm_num
    have h4 : competitive allFireSnap = true := by
      simp [competitive, allFireSnap]
      norm_num
    have h5 : high_volume allFireSnap = true := by
      simp [high_volume, allFireSnap]
      norm_num
    simp [score_market, scoreTable, h1, h2, h3, h4, h5]

/-- C4: a snapshot whose 1-week volume is zero never fires the volume-growth
criterion, and the criterion contributes exactly zero to the score: the score
is the accumulated points of the remaining four rows alone. -/
theorem volume_growth_zero_guard (s : MarketSnapshot) (h : s.volume_1wk = 0) :
    volume_growth s = false
    ∧ score_market s
        = (if recent_creation s then 20 else 0) + (if high_liquidity s then 15 else 0)
          + (if competitive s then 25 else 0) + (if high_volume s then 10 else 0) := by
  have hvg : volume_growth s = false := by
    simp [volume_growth, h]
  refine ⟨hvg, ?_⟩
  simp only [score_market, scoreTable, List.foldl, hvg]
  split_ifs <;> first | contradiction | norm_num

/-- Witness for C4: on the concrete market with 1wk volume 0 and 24h volume
500 the volume-growth criterion does not fire. -/
theorem volume_growth_zero_guard_witness :
    zeroWkSnap.volume_1wk = 0
    ∧ (volume_growth zeroWkSnap = false
        ∧ score_market zeroWkSnap
            = (if recent_creation zeroWkSnap then 20 else 0)
              + (if high_liquidity zeroWkSnap then 15 else 0)
              + (if competitive zeroWkSnap then 25 else 0)
              + (if high_volume zeroWkSnap then 10 else 0)) :=
  ⟨rfl, volume_growth_zero_guard zeroWkSnap rfl⟩

/-- C5 counterexample: with a well-formed body and an unreachable backend the
filter forwarding route does not fail; it answers with the fabricated mock
payload, whose result list is not empty. -/
theorem filterRoute_counterexample :
    filterRoutePOST (some "{}") none
      = FilterRouteResponse.mockFallback "Filters applied successfully (Mock Data)" "{}" mockResults
    ∧ (filterRoutePOST (some "{}") none).isFailure = false
    ∧ mockResults ≠ [] := by
  refine ⟨rfl, rfl, by decide⟩

/-- C5 amended: when the backend is unreachable the filter forwarding route
silently substitutes the fixed mock payload (never an error), forwards the
backend data verbatim when the backend answers, and only fails with a 500
error when the request body itself cannot be processed. -/
theorem filterRoute_mock_fallback (b : String) :
    filterRoutePOST (some b) none
      = FilterRouteResponse.mockFallback "Filters applied successfully (Mock Data)" b mockResults
    ∧ (filterRoutePOST (some b) none).isFailure = false
    ∧ (∀ d : String, filterRoutePOST (some b) (some d) = FilterRouteResponse.fromBackend d)
    ∧ ∀ backend : Option String,
        filterRoutePOST none backend = FilterRouteResponse.failure 500 "Failed to process filters" := by
  exact ⟨rfl, rfl, fun d => rfl, fun backend => rfl⟩

/-- Flattening concatenates, in event order, the per-event market blocks. -/
lemma flattenEvents_eq_join (events : List TrendingEvent) :
    flattenEvents events = (events.map (fun e => e.markets.map (toOutMarket e))).flatten := by
  induction events with
  | nil => rfl
  | cons e es ih => simp [flattenEvents, ih]

/-- The number of flattened markets is the sum of the event market counts. -/
lemma length_flattenEvents (events : List TrendingEvent) :
    (flattenEvents events).length = (events.map (fun e => e.markets.length)).sum := by
  induction events with
  | nil => rfl
  | cons e es ih => simp [flattenEvents, ih]

/-- C9: the trendings route preserves every market of every event exactly
once and in order (the output is the in-order concatenation of the per-event
market blocks and its length is the sum of the per-event counts), the count
field equals the length of the markets list, and each output market carries
its event's category label, defaulting to "Trending" when the event has
none. -/
theorem trendingsGET_spec :
    (∀ events : List TrendingEvent,
        (trendingsGET events).count = (trendingsGET events).markets.length)
    ∧ (∀ events : List TrendingEvent,
        (trendingsGET events).markets
          = (events.map (fun e => e.markets.map (toOutMarket e))).flatten)
    ∧ (∀ events : List TrendingEvent,
        (trendingsGET events).markets.length
          = (events.map (fun e => e.markets.length)).sum)
    ∧ (∀ (e : TrendingEvent) (m : RawMarket),
        e.category = none → (toOutMarket e m).category_label = "Trending")
    ∧ (∀ (e : TrendingEvent) (m : RawMarket) (c : String),
        e.category = some c → c ≠ "" → (toOutMarket e m).category_label = c) := by
  refine ⟨fun events => rfl, fun events => flattenEvents_eq_join events,
    fun events => length_flattenEvents events, ?_, ?_⟩
  · intro e m h
    simp [toOutMarket, orTrending, h]
  · intro e m c h hc
    simp [toOutMarket, orTrending, h, hc]

/-- Witness for C9: on a concrete two-event feed the count equals the length,
the flattening is the in-order concatenation, and the category labels default
as claimed. -/
theorem trendingsGET_spec_witness :
    (trendingsGET [noCatEvent, politicsEvent]).count
      = (trendingsGET [noCatEvent, politicsEvent]).markets.length
    ∧ (toOutMarket noCatEvent { id := "m1", question := "q1", yes_price := 60, no_price := 40
        }).category_label = "Trending"
    ∧ (toOutMarket politicsEvent { id := "m2", question := "q2", yes_price := 50, no_price := 50
        }).category_label = "Politics" :=
  ⟨trendingsGET_spec.1 [noCatEvent, politicsEvent],
   trendingsGET_spec.2.2.2.1 noCatEvent _ rfl,
   trendingsGET_spec.2.2.2.2 politicsEvent _ "Politics" rfl (by decide)⟩

/-- A market found by lastWithTitle carries the title searched for. -/
lemma lastWithTitle_title {t : String} {l : List OutMarket} {m : OutMarket}
    (h : lastWithTitle t l = some m) : m.event_title = t := by
  induction l with
  | nil => simp [lastWithTitle] at h
  | cons x xs ih =>
    simp only [lastWithTitle] at h
    cases hx : lastWithTitle t xs with
    | some r => rw [hx] at h; exact ih (hx.trans h)
    | none =>
      rw [hx] at h
      by_cases ht : x.event_title = t
      · rw [if_pos ht] at h
        cases h
        exact ht
      · rw [if_neg ht] at h
        cases h

/-- A title occurring among the mapped titles has a last occurrence. -/
lemma lastWithTitle_isSome {t : String} {l : List OutMarket}
    (h : t ∈ l.map (fun m => m.event_title)) : ∃ m, lastWithTitle t l = some m := by
  induction l with
  | nil => simp at h
  | cons x xs ih =>
    simp only [List.map_cons, List.mem_cons] at h
    cases hx : lastWithTitle t xs with
    | some r => exact ⟨r, by simp [lastWithTitle, hx]⟩
    | none =>
      rcases h with h | h
      · exact ⟨x, by simp [lastWithTitle, hx, h.symm]⟩
      · rcases ih h with ⟨m, hm⟩
        rw [hm] at hx
        cases hx

/-- Membership in the deduplicated title list is membership in the original. -/
lemma mem_dedupTitles {s : String} {ts : List String} :
    s ∈ dedupTitles ts ↔ s ∈ ts := by
  induction ts with
  | nil => simp [dedupTitles]
  | cons t ts ih =>
    simp only [dedupTitles, List.mem_cons, List.mem_filter]
    constructor
    · rintro (rfl | ⟨hs, _⟩)
      · exact Or.inl rfl
      · exact Or.inr (ih.mp hs)
    · rintro (rfl | hs)
      · exact Or.inl rfl
      · by_cases hst : s = t
        · exact Or.inl hst
        · exact Or.inr ⟨ih.mpr hs, by simpa using hst⟩

/-- The deduplicated title list has no duplicates. -/
lemma nodup_dedupTitles (ts : List String) : (dedupTitles ts).Nodup := by
  induction ts with
  | nil => simp [dedupTitles]
  | cons t ts ih =>
    refine List.Nodup.cons ?_ (List.Nodup.filter _ ih)
    intro hmem
    rcases List.mem_filter.mp hmem with ⟨_, hne⟩
    simp at hne

/-- Resolving each title of a list through lastWithTitle recovers exactly the
titles, provided every title occurs in the market list. -/
lemma map_title_filterMap (l : List OutMarket) (ts : List String)
    (h : ∀ t ∈ ts, t ∈ l.map (fun m => m.event_title)) :
    ((ts.filterMap (fun t => lastWithTitle t l)).map (fun m => m.event_title)) = ts := by
  induction ts with
  | nil => simp
  | cons t ts ih =>
    rcases lastWithTitle_isSome (h t (List.mem_cons_self t ts)) with ⟨m, hm⟩
    simp only [List.filterMap_cons, hm, List.map_cons]
    rw [lastWithTitle_title hm, ih (fun u hu => h u (List.mem_cons_of_mem t hu))]

/-- C10 counterexample: two markets sharing the event title "E" with ids "1"
and "2"; the deduplicated list keeps the market with id "2", the last
occurrence, not the first one. -/
theorem dedupByTitle_counterexample :
    (dedupByTitle [dupFirst, dupSecond]).map (fun m => m.id) = ["2"]
    ∧ (dedupByTitle [dupFirst, dupSecond]).map (fun m => m.id) ≠ ["1"] := by
  exact ⟨rfl, by decide⟩

/-- C10 amended: the TrendingBar deduplication displays each event title at
most once, titles in first-occurrence order, and the displayed market for a
title is the last fetched market carrying that title (a JavaScript Map keeps
the latest value per key), not the first occurrence. -/
theorem dedupByTitle_spec (l : List OutMarket) :
    ((dedupByTitle l).map (fun m => m.event_title)).Nodup
    ∧ (dedupByTitle l).map (fun m => m.event_title)
        = dedupTitles (l.map (fun m => m.event_title))
    ∧ ∀ m ∈ dedupByTitle l, lastWithTitle m.event_title l = some m := by
  have hmap : (dedupByTitle l).map (fun m => m.event_title)
      = dedupTitles (l.map (fun m => m.event_title)) := by
    refine map_title_filterMap l _ ?_
    intro t ht
    exact mem_dedupTitles.mp ht
  refine ⟨?_, hmap, ?_⟩
  · rw [hmap]
    exact nodup_dedupTitles _
  · intro m hm
    rcases List.mem_filterMap.mp hm with ⟨t, _, hlast⟩
    rw [lastWithTitle_title hlast]
    exact hlast

/-- Witness for C10: applying the deduplication guarantees to a concrete
fetched list with a repeated title: the kept market is the last occurrence. -/
theorem dedupByTitle_spec_witness :
    dupSecond ∈ dedupByTitle [dupFirst, dupSecond]
    ∧ lastWithTitle dupSecond.event_title [dupFirst, dupSecond] = some dupSecond := by
  have hmem : dupSecond ∈ dedupByTitle [dupFirst, dupSecond] := by
    rw [show dedupByTitle [dupFirst, dupSecond] = [dupSecond] from rfl]
    exact List.mem_singleton.mpr rfl
  exact ⟨hmem, (dedupByTitle_spec [dupFirst, dupSecond]).2.2 dupSecond hmem⟩

/-- Inserting is a permutation of prepending. -/
lemma perm_insertByProfit (x : Profile) (l : List Profile) :
    List.Perm (insertByProfit x l) (x :: l) := by
  induction l with
  | nil => exact List.Perm.refl _
  | cons y ys ih =>
    simp only [insertByProfit]
    by_cases h : y.profit ≤ x.profit
    · rw [if_pos h]
    · rw [if_neg h]
      exact (List.Perm.cons y ih).trans (List.Perm.swap x y ys)

/-- The profile sort permutes its input. -/
lemma perm_sortByProfitDesc (l : List Profile) :
    List.Perm (sortByProfitDesc l) l := by
  induction l with
  | nil => exact List.Perm.refl _
  | cons x xs ih =>
    exact (perm_insertByProfit x (sortByProfitDesc xs)).trans (List.Perm.cons x ih)

/-- Membership after insertion. -/
lemma mem_insertByProfit {z x : Profile} {l : List Profile} :
    z ∈ insertByProfit x l ↔ z = x ∨ z ∈ l :=
  by simpa using (perm_insertByProfit x l).mem_iff

/-- Inserting into a descending list keeps it descending. -/
lemma pairwise_insertByProfit {x : Profile} {l : List Profile}
    (hl : l.Pairwise (fun a b => b.profit ≤ a.profit)) :
    (insertByProfit x l).Pairwise (fun a b => b.profit ≤ a.profit) := by
  induction l with
  | nil => simp [insertByProfit]
  | cons y ys ih =>
    simp only [insertByProfit]
    rcases List.pairwise_cons.mp hl with ⟨hy, hys⟩
    by_cases h : y.profit ≤ x.profit
    · rw [if_pos h]
      refine List.pairwise_cons.mpr ⟨?_, hl⟩
      intro z hz
      rcases List.mem_cons.mp hz with rfl | hz
      · exact h
      · exact le_trans (hy z hz) h
    · rw [if_neg h]
      refine List.pairwise_cons.mpr ⟨?_, ih hys⟩
      intro z hz
      rcases mem_insertByProfit.mp hz with rfl | hz
      · exact le_of_lt (lt_of_not_le h)
      · exact hy z hz

/-- The profile sort output is descending by profit. -/
lemma pairwise_sortByProfitDesc (l : List Profile) :
    (sortByProfitDesc l).Pairwise (fun a b => b.profit ≤ a.profit) := by
  induction l with
  | nil => simp [sortByProfitDesc]
  | cons x xs ih => exact pairwise_insertByProfit ih

/-- Insertion and filtering by one profit value commute: an inserted element
lands in front of the equal-profit elements already present. -/
lemma filter_insertByProfit (v : ℚ) (x : Profile) (l : List Profile) :
    (insertByProfit x l).filter (fun p => p.profit = v)
      = if x.profit = v then x :: l.filter (fun p => p.profit = v)
        else l.filter (fun p => p.profit = v) := by
  induction l with
  | nil => by_cases hx : x.profit = v <;> simp [insertByProfit, List.filter, hx]
  | cons y ys ih =>
    simp only [insertByProfit]
    by_cases h : y.profit ≤ x.profit
    · rw [if_pos h]
      by_cases hx : x.profit = v
      · simp [List.filter_cons, hx]
      · simp [List.filter_cons, hx]
    · rw [if_neg h]
      by_cases hx : x.profit = v
      · have hy : ¬ y.profit = v := by
          intro hy
          exact h (le_of_eq (hy.trans hx.symm))
        rw [if_pos hx] at ih ⊢
        simp only [List.filter_cons, hy, ih]
        simp [hy]
      · rw [if_neg hx] at ih ⊢
        simp only [List.filter_cons, ih]

/-- Stability of the profile sort: for every profit value the equal-profit
profiles keep their input order. -/
lemma filter_sortByProfitDesc (v : ℚ) (l : List Profile) :
    (sortByProfitDesc l).filter (fun p => p.profit = v)
      = l.filter (fun p => p.profit = v) := by
  induction l with
  | nil => rfl
  | cons x xs ih =>
    simp only [sortByProfitDesc, filter_insertByProfit, ih, List.filter_cons]
    by_cases hx : x.profit = v
    · simp [hx]
    · simp [hx]

/-- C6 counterexample: on the input listing 0xbbb before 0xaaa, both with
profit 500, the frontend sort keeps 0xbbb first: equal-profit profiles are
not reordered to ascending wallet address. -/
theorem sortByProfitDesc_counterexample :
    sortByProfitDesc [tieBbb, tieAaa] = [tieBbb, tieAaa]
    ∧ tieAaa.profit = tieBbb.profit
    ∧ tieAaa.wallet < tieBbb.wallet
    ∧ sortByProfitDesc [tieBbb, tieAaa] ≠ [tieAaa, tieBbb] := by
  refine ⟨rfl, rfl, ?_, ?_⟩
  · rw [String.lt_iff_toList_lt]
    decide
  · intro h
    exact absurd (congrArg (List.map (fun p => p.wallet)) h) (by decide)

/-- C6 amended: the frontend profile sorts (page.tsx Top Profits, the
ProfitChart) order descending by profit, the only key the comparator reads;
the output is a permutation of the input and equal-profit profiles keep
their input order (the stable JavaScript sort), with no wallet-address
tie-break. -/
theorem sortByProfitDesc_spec :
    (∀ l : List Profile, List.Perm (sortByProfitDesc l) l)
    ∧ (∀ l : List Profile,
        (sortByProfitDesc l).Pairwise (fun a b => b.profit ≤ a.profit))
    ∧ (∀ (v : ℚ) (l : List Profile),
        (sortByProfitDesc l).filter (fun p => p.profit = v)
          = l.filter (fun p => p.profit = v)) :=
  ⟨perm_sortByProfitDesc, pairwise_sortByProfitDesc, filter_sortByProfitDesc⟩

/-- C7 counterexample: on a single unprofitable profile the chart's capped
output is empty while the first ten elements of the fully sorted sequence
still hold that profile: the chart caps the positive-profit subsequence, not
the fully sorted sequence itself. -/
theorem cappedTruncation_counterexample :
    chartTop10 [lossProfile] = []
    ∧ (sortByProfitDesc [lossProfile]).take 10 = [lossProfile]
    ∧ chartTop10 [lossProfile] ≠ (sortByProfitDesc [lossProfile]).take 10 := by
  refine ⟨rfl, rfl, ?_⟩
  intro h
  exact absurd (congrArg List.length h) (by decide)

/-- C7 amended: both frontend caps truncate only after the full sort: the
page's Top Profits box is the first three elements of the fully sorted
sequence, the chart's top slice is the first ten elements of the sorted
sequence restricted to positive profits; truncating a sorted sequence never
changes which profiles rank highest nor their relative order, since every
kept profile has at least the profit of every dropped one. -/
theorem cappedTruncation_spec :
    (∀ ps : List Profile, topProfits ps = (sortByProfitDesc ps).take 3)
    ∧ (∀ ps : List Profile,
        chartTop10 ps = ((sortByProfitDesc ps).filter (fun p => 0 < p.profit)).take 10)
    ∧ (∀ (ps : List Profile) (n : ℕ) (x y : Profile),
        x ∈ (sortByProfitDesc ps).take n → y ∈ (sortByProfitDesc ps).drop n →
          y.profit ≤ x.profit)
    ∧ (∀ (ps : List Profile) (x y : Profile),
        x ∈ chartTop10 ps → y ∈ chartOthers ps → y.profit ≤ x.profit) := by
  refine ⟨fun ps => rfl, fun ps => rfl, ?_, ?_⟩
  · intro ps n x y hx hy
    have hp := pairwise_sortByProfitDesc ps
    rw [← List.take_append_drop n (sortByProfitDesc ps)] at hp
    exact (List.pairwise_append.mp hp).2.2 x hx y hy
  · intro ps x y hx hy
    have hp := (pairwise_sortByProfitDesc ps).filter (fun p => decide (0 < p.profit))
    rw [show ((sortByProfitDesc ps).filter fun p => decide (0 < p.profit))
        = chartProfitable ps from rfl] at hp
    rw [← List.take_append_drop 10 (chartProfitable ps)] at hp
    exact (List.pairwise_append.mp hp).2.2 x hx y hy

/-- Witness for C7: capping the concrete sorted two-profile sequence at one
keeps the higher-profit profile ahead of the dropped lower-profit one. -/
theorem cappedTruncation_spec_witness :
    bigWin ∈ (sortByProfitDesc [smallWin, bigWin]).take 1
    ∧ smallWin ∈ (sortByProfitDesc [smallWin, bigWin]).drop 1
    ∧ smallWin.profit ≤ bigWin.profit := by
  have hx : bigWin ∈ (sortByProfitDesc [smallWin, bigWin]).take 1 := by
    rw [show (sortByProfitDesc [smallWin, bigWin]).take 1 = [bigWin] from rfl]
    exact List.mem_singleton.mpr rfl
  have hy : smallWin ∈ (sortByProfitDesc [smallWin, bigWin]).drop 1 := by
    rw [show (sortByProfitDesc [smallWin, bigWin]).drop 1 = [smallWin] from rfl]
    exact List.mem_singleton.mpr rfl
  exact ⟨hx, hy, cappedTruncation_spec.2.2.1 [smallWin, bigWin] 1 bigWin smallWin hx hy⟩

/-- C8: a criterion whose condition is reset passes every profile whatever
its threshold, so filtering a profile list with it is the identity; reset is
never read as an equality test against zero. -/
theorem reset_criterion_passes (c : FilterCriterion)
    (h : c.condition = FilterCondition.reset) :
    (∀ p : WalletStats, criterion_passes c p = true)
    ∧ ∀ ps : List WalletStats, ps.filter (fun q => criterion_passes c q) = ps := by
  have hp : ∀ p : WalletStats, criterion_passes c p = true := by
    intro p
    simp [criterion_passes, h]
  exact ⟨hp, fun ps => List.filter_eq_self.mpr (fun q _ => hp q)⟩

/-- Witness for C8: the concrete reset criterion with threshold 12345 passes
a profile whose field value is 7 and leaves a concrete profile list intact. -/
theorem reset_criterion_passes_witness :
    resetCriterion.condition = FilterCondition.reset
    ∧ criterion_passes resetCriterion statsSeven = true
    ∧ [statsSeven].filter (fun q => criterion_passes resetCriterion q) = [statsSeven] :=
  ⟨rfl, (reset_criterion_passes resetCriterion rfl).1 statsSeven,
   (reset_criterion_passes resetCriterion rfl).2 [statsSeven]⟩

end PolyResearch

